import Mathlib

/-!
Shallow embedding of the worker/queue assignment and datapath dispatch core of
the grout packet router, and proofs about it.

Embedded source files:
  - src/modules/ip6/datapath/ip6_output.c  (IPv6 output node)
  - src/modules/infra/datapath/tx.c        (TX node)
  - src/modules/infra/control/worker_test.c and src/modules/infra/include/br_worker.h
    (worker / RX queue assignment; the body of worker_rxq_assign itself is not in
    the sources, it is modelled from the design document and validated against
    the unit tests, which are in the sources).
-/

set_option maxRecDepth 4000

namespace Grout

/-- Bytes of an IPv6 address, as in struct rte_ipv6_addr (16 bytes). -/
structure IP6 where
  bytes : List Nat
deriving DecidableEq, Repr

/-- Bytes of an ethernet address, as in struct rte_ether_addr (6 bytes). -/
structure Mac where
  bytes : List Nat
deriving DecidableEq, Repr

/-- Embedding of rte_ipv6_addr_is_mcast: an IPv6 address is multicast iff its
first byte is 0xff. -/
def rte_ipv6_addr_is_mcast (a : IP6) : Bool :=
  a.bytes.headD 0 == 0xff

/-- Embedding of rte_ether_mcast_from_ipv6: the multicast MAC is 33:33 followed
by the last four bytes of the IPv6 address. -/
def rte_ether_mcast_from_ipv6 (a : IP6) : Mac :=
  ⟨[0x33, 0x33] ++ a.bytes.drop 12⟩

/-- Value of RTE_ETHER_TYPE_IPV6. -/
def RTE_ETHER_TYPE_IPV6 : Nat := 0x86DD

/-- Embedding of RTE_BE16 on a little-endian host: byte swap of a 16-bit value. -/
def RTE_BE16 (x : Nat) : Nat := (x % 256) * 256 + (x / 256) % 256

/-- Value of RTE_IPV6_MAX_DEPTH: a /128 route. -/
def RTE_IPV6_MAX_DEPTH : Nat := 128

/-- Edge ids of the ip6_output node, in the order of the enum in ip6_output.c. -/
def ETH_OUTPUT : Nat := 0

/-- Edge NO_ROUTE of the ip6_output node. -/
def NO_ROUTE : Nat := 1

/-- Edge ERROR of the ip6_output node. -/
def ERROR : Nat := 2

/-- Edge QUEUE_FULL of the ip6_output node. -/
def QUEUE_FULL : Nat := 3

/-- Modelled from the spec: GR_IFACE_TYPE_UNDEF, the undefined interface type id
(its defining header gr_iface.h is not in the sources; the numeric value is
irrelevant to the claims). -/
def GR_IFACE_TYPE_UNDEF : Nat := 0

/-- Modelled from the spec: IP6_NH_MAX_HELD_PKTS, the hold-queue bound HOLD_MAX
(its defining header gr_ip6_control.h is not in the sources; the spec gives 256). -/
def IP6_NH_MAX_HELD_PKTS : Nat := 256

/-- Embedding of struct nexthop6 (the fields read or written by ip6_output.c).
The three flag bits GR_IP6_NH_F_REACHABLE, GR_IP6_NH_F_PENDING, GR_IP6_NH_F_LINK
are separate booleans; held_pkts is the intrusive held-packet list (as the list
of the held mbuf ids, head first) and held_pkts_num the separate counter kept by
the code. -/
structure Nexthop6 where
  vrf_id : Nat
  iface_id : Nat
  ip : IP6
  lladdr : Mac
  reachable : Bool
  pending : Bool
  link : Bool
  held_pkts : List Nat
  held_pkts_num : Nat
deriving DecidableEq, Repr

/-- Embedding of a packet (mbuf) as seen by ip6_output: an identity, the IPv6
destination address from its header, and the next-hop metadata pointer. -/
structure Pkt where
  id : Nat
  dst : IP6
  nh : Option Nexthop6
deriving DecidableEq, Repr

/-- Embedding of struct iface (the fields read by ip6_output.c). -/
structure Iface where
  id : Nat
  type_id : Nat
deriving DecidableEq, Repr

/-- Embedding of the hold_status_t enum of ip6_output.c. -/
inductive hold_status_t where
  | OK_TO_SEND
  | HELD
  | HOLD_QUEUE_FULL
deriving DecidableEq, Repr

/-- Result of maybe_hold_packet: the returned status, the state of the next hop
after the call, and whether ip6_nexthop_solicit was called. -/
structure HoldResult where
  status : hold_status_t
  nh : Nexthop6
  solicited : Bool
deriving DecidableEq, Repr

/-- Embedding of maybe_hold_packet (ip6_output.c lines 47-73). -/
def maybe_hold_packet (nh : Nexthop6) (pkt : Pkt) : HoldResult :=
  if nh.reachable || rte_ipv6_addr_is_mcast pkt.dst then
    ⟨.OK_TO_SEND, nh, false⟩
  else if nh.held_pkts_num < IP6_NH_MAX_HELD_PKTS then
    let nh1 : Nexthop6 :=
      { nh with held_pkts := nh.held_pkts ++ [pkt.id], held_pkts_num := nh.held_pkts_num + 1 }
    if !nh1.pending then
      ⟨.HELD, { nh1 with pending := true }, true⟩
    else
      ⟨.HELD, nh1, false⟩
  else
    ⟨.HOLD_QUEUE_FULL, nh, false⟩

/-- Eth-output metadata written by ip6_output on OK_TO_SEND. -/
structure EthData where
  dst : Mac
  ether_type : Nat
  iface : Iface
deriving DecidableEq, Repr

/-- What happened to a packet: enqueued on an edge of the node, or held in a
next-hop hold queue (no enqueue at all). -/
inductive PktAction where
  | enqueued (edge : Nat)
  | held
deriving DecidableEq, Repr

/-- Per-packet outcome of ip6_output_process: the action, the final value of the
packet's next-hop metadata, the eth-output metadata if written, the state of the
dispatched next hop after hold processing, whether ip6_nexthop_solicit was
called, the successful ip6_route_insert call if any (vrf, destination, prefix
depth, inserted next hop), and whether the packet counted as sent. -/
structure PktResult where
  action : PktAction
  nh_meta : Option Nexthop6
  eth : Option EthData
  nh_after : Option Nexthop6
  solicited : Bool
  route_inserted : Option (Nat × IP6 × Nat × Nexthop6)
  sent : Bool
deriving DecidableEq, Repr

/-- Environment of the ip6_output node: the interface registry (iface_from_id),
the edges override table (edges[128], missing entries read as ETH_OUTPUT), and
the external collaborators ip6_nexthop_new and ip6_route_insert (the latter as a
success predicate). -/
structure Ip6Env where
  ifaces : List Iface
  edges : List Nat
  nexthop_new : Nat → Nat → IP6 → Option Nexthop6
  route_insert_ok : Nat → IP6 → Nat → Bool

/-- Embedding of the tail of the per-packet loop body of ip6_output_process
(ip6_output.c lines 129-153): hold-queue discipline then eth metadata. The nh
argument is the current next hop of the packet (after a possible /128
promotion), iface the resolved egress interface, route the route insertion
performed by the promotion if any. -/
def ip6_output_hold (pkt : Pkt) (iface : Iface)
    (route : Option (Nat × IP6 × Nat × Nexthop6)) (nh : Nexthop6) : PktResult :=
  let r := maybe_hold_packet nh pkt
  match r.status with
  | .HELD =>
    ⟨.held, some nh, none, some r.nh, r.solicited, route, false⟩
  | .HOLD_QUEUE_FULL =>
    ⟨.enqueued QUEUE_FULL, some nh, none, some r.nh, r.solicited, route, false⟩
  | .OK_TO_SEND =>
    let dstMac := if rte_ipv6_addr_is_mcast pkt.dst then rte_ether_mcast_from_ipv6 pkt.dst
                  else nh.lladdr
    ⟨.enqueued ETH_OUTPUT, some nh,
      some ⟨dstMac, RTE_BE16 RTE_ETHER_TYPE_IPV6, iface⟩,
      some r.nh, r.solicited, route, true⟩

/-- Embedding of the per-packet loop body of ip6_output_process
(ip6_output.c lines 87-154). -/
def ip6_output_one (env : Ip6Env) (pkt : Pkt) : PktResult :=
  match pkt.nh with
  | none => ⟨.enqueued NO_ROUTE, none, none, none, false, none, false⟩
  | some nh =>
    match env.ifaces.find? (fun it => it.id == nh.iface_id) with
    | none => ⟨.enqueued ERROR, some nh, none, none, false, none, false⟩
    | some iface =>
      let edge := env.edges.getD iface.type_id ETH_OUTPUT
      if edge != ETH_OUTPUT then
        ⟨.enqueued edge, some nh, none, none, false, none, false⟩
      else if nh.link && !rte_ipv6_addr_is_mcast pkt.dst && !(pkt.dst == nh.ip) then
        match env.nexthop_new nh.vrf_id nh.iface_id pkt.dst with
        | none => ⟨.enqueued ERROR, some nh, none, none, false, none, false⟩
        | some remote =>
          if env.route_insert_ok nh.vrf_id pkt.dst RTE_IPV6_MAX_DEPTH then
            ip6_output_hold pkt iface (some (nh.vrf_id, pkt.dst, RTE_IPV6_MAX_DEPTH, remote))
              remote
          else
            ⟨.enqueued ERROR, some nh, none, none, false, none, false⟩
      else
        ip6_output_hold pkt iface none nh

/-- Embedding of ip6_output_process over a burst: the per-packet results and the
returned sent count. Packets are processed independently in the loop. -/
def ip6_output_process (env : Ip6Env) (pkts : List Pkt) : Nat × List PktResult :=
  let results := pkts.map (ip6_output_one env)
  (results.countP (fun r => r.sent), results)

/-- Embedding of ip6_output_add_tunnel (ip6_output.c lines 32-39) over the
override table (a list of edge ids of length 128, every entry initially
ETH_OUTPUT). ABORT is modelled as none; new_edge stands for the edge returned by
gr_node_attach_parent. -/
def ip6_output_add_tunnel (edges : List Nat) (iface_type_id : Nat) (new_edge : Nat) :
    Option (List Nat) :=
  if iface_type_id == GR_IFACE_TYPE_UNDEF || 128 ≤ iface_type_id then
    none
  else if edges.getD iface_type_id ETH_OUTPUT != ETH_OUTPUT then
    none
  else
    some (edges.set iface_type_id new_edge)

/-! The TX node (src/modules/infra/datapath/tx.c). -/

/-- Embedding of a packet as seen by the TX node: an identity and the TX
metadata (tx_mbuf_priv), none when the metadata is absent. -/
structure TxPkt where
  id : Nat
  port : Option Nat
deriving DecidableEq, Repr

/-- Value of TX_ERROR, the first edge of the eth_tx node. -/
def TX_ERROR : Nat := 0

/-- Value of NO_PORT, the second edge of the eth_tx node. -/
def NO_PORT : Nat := 1

/-- Embedding of struct tx_ctx: the per-node port to local TX queue id map. -/
structure TxCtx where
  txq_ids : Nat → Nat

/-- Observable effects of a tx_process call: every rte_eth_tx_burst call in
order (port id, TX queue id, offered packets), the packets enqueued on the
TX_ERROR edge and the packets enqueued on the NO_PORT edge. -/
structure TxEffects where
  bursts : List (Nat × Nat × List TxPkt)
  tx_error : List TxPkt
  no_port : List TxPkt
deriving DecidableEq, Repr

/-- Embedding of tx_burst (tx.c lines 26-42). The driver rte_eth_tx_burst is
the accept parameter: how many of the offered packets it accepts. -/
def tx_burst (accept : Nat → Nat → Nat → Nat) (ctx : TxCtx) (port_id : Nat)
    (mbufs : List TxPkt) (eff : TxEffects) : Nat × TxEffects :=
  let txq_id := ctx.txq_ids port_id
  let n := mbufs.length
  let tx_ok := accept port_id txq_id n
  let eff1 : TxEffects := { eff with bursts := eff.bursts ++ [(port_id, txq_id, mbufs)] }
  let eff2 : TxEffects :=
    if tx_ok < n then { eff1 with tx_error := eff1.tx_error ++ mbufs.drop tx_ok } else eff1
  (tx_ok, eff2)

/-- Embedding of the loop of tx_process (tx.c lines 52-73). The recursion walks
rest (the suffix of objs starting at index i) and carries the loop variables
port_id, burst_start and count; it returns their values at loop exit together
with the final index i. The inner flush is kept exactly as in the source, where
it is guarded by burst_start being different from i right after burst_start was
assigned i. -/
def tx_process_go (accept : Nat → Nat → Nat → Nat) (ctx : TxCtx) (objs : List TxPkt) :
    List TxPkt → Nat → Nat → Nat → Nat → TxEffects → Nat × Nat × Nat × Nat × TxEffects
  | [], i, port_id, burst_start, count, eff => (i, port_id, burst_start, count, eff)
  | mbuf :: rest, i, port_id, burst_start, count, eff =>
    match mbuf.port with
    | none =>
      tx_process_go accept ctx objs rest (i + 1) port_id burst_start count
        { eff with no_port := eff.no_port ++ [mbuf] }
    | some p =>
      if p != port_id then
        let burst_start1 := i
        let step :=
          if burst_start1 != i then
            let r := tx_burst accept ctx port_id
              ((objs.drop burst_start1).take (i - burst_start1)) eff
            (count + r.1, r.2)
          else (count, eff)
        tx_process_go accept ctx objs rest (i + 1) p burst_start1 step.1 step.2
      else
        tx_process_go accept ctx objs rest (i + 1) port_id burst_start count eff

/-- Embedding of tx_process (tx.c lines 44-86): run the loop starting with
port_id = UINT16_MAX, then the final flush of objs from burst_start to i. -/
def tx_process (accept : Nat → Nat → Nat → Nat) (ctx : TxCtx) (objs : List TxPkt) :
    Nat × TxEffects :=
  let r := tx_process_go accept ctx objs objs 0 65535 0 0 ⟨[], [], []⟩
  match r with
  | (i, port_id, burst_start, count, eff) =>
    if burst_start != i then
      let b := tx_burst accept ctx port_id ((objs.drop burst_start).take (i - burst_start)) eff
      (count + b.1, b.2)
    else
      (count, eff)

/-! Worker registry and RX queue assignment
    (src/modules/infra/include/br_worker.h, src/modules/infra/control/worker_test.c).

The body of worker_rxq_assign is not part of the sources; only its unit tests
are. It is modelled from the design document, section 4.3, with the two points
the document leaves open resolved by the unit tests: a newly created worker is
inserted at the head of the worker list (LIST_INSERT_HEAD, as the tests
rxq_assign_new_worker and rxq_assign_new_worker2 require through the TX queue
ids they assert), and TX queue ids are renumbered, in worker list order, only
when a worker was created or destroyed by the call (as the tests
rxq_assign_existing_worker and rxq_assign_existing_worker_destroy require). -/

/-- Embedding of struct queue_map (br_worker.h lines 18-22). -/
structure QueueMap where
  port_id : Nat
  queue_id : Nat
  enabled : Bool
deriving DecidableEq, Repr

/-- Embedding of struct worker (br_worker.h lines 36-61), restricted to the
fields the assignment engine uses. -/
structure Worker where
  cpu_id : Nat
  rxqs : List QueueMap
  txqs : List QueueMap
deriving DecidableEq, Repr

/-- Embedding of struct port (the fields used by the assignment engine). -/
structure Port where
  port_id : Nat
  n_rxq : Nat
  n_txq : Nat
deriving DecidableEq, Repr

/-- Control-plane state seen by worker_rxq_assign: the workers list (list order
is the LIST_INSERT_HEAD order, most recently inserted first) and the ports
list. -/
structure WorkerState where
  workers : List Worker
  ports : List Port
deriving DecidableEq, Repr

/-- CPU environment: the main (control plane) lcore and the process CPU
allowance set (numa_bitmask_isbitset). -/
structure CpuEnv where
  main_lcore : Nat
  cpu_allowed : Nat → Bool

/-- Error codes returned by worker_rxq_assign. -/
inductive Errno where
  | EBUSY
  | ERANGE
  | ENODEV
deriving DecidableEq, Repr

/-- Embedding of worker_count: the number of live workers. -/
def worker_count (s : WorkerState) : Nat := s.workers.length

/-- Whether a queue map entry is for the given (port, queue) pair. -/
def qmap_matches (port_id queue_id : Nat) (q : QueueMap) : Bool :=
  q.port_id == port_id && q.queue_id == queue_id

/-- Whether a worker's rxqs own the given (port, queue) pair. -/
def worker_owns (port_id queue_id : Nat) (w : Worker) : Bool :=
  w.rxqs.any (qmap_matches port_id queue_id)

/-- Modelled from the spec: the symmetric TX map renumbering (design document,
section 4.3 step 4). Workers, walked in list order starting at index i, each
get exactly one TX queue map per known port, with queue id equal to their
position. -/
def renumber_txqs (ports : List Port) : List Worker → Nat → List Worker
  | [], _ => []
  | w :: ws, i =>
    { w with txqs := ports.map (fun p => ⟨p.port_id, i, true⟩) } :: renumber_txqs ports ws (i + 1)

/-- Modelled from the spec: moving the (port, queue) RX map to the worker on
cpu_id (design document, section 4.3 step 3): remove it from every worker's
rxqs, then append it, enabled, to the destination's rxqs. -/
def move_rxqs (ws : List Worker) (port_id queue_id cpu_id : Nat) : List Worker :=
  (ws.map (fun w =>
      { w with rxqs := w.rxqs.filter (fun qm => !(qmap_matches port_id queue_id qm)) })).map
    (fun w =>
      if w.cpu_id == cpu_id then { w with rxqs := w.rxqs ++ [⟨port_id, queue_id, true⟩] }
      else w)

/-- Modelled from the spec: the mutation part of worker_rxq_assign when the
destination worker already exists (design document, section 4.3 steps 3-5):
move the RX queue map, destroy workers whose rxqs became empty, and renumber
the TX maps only when one was destroyed (the tests rxq_assign_existing_worker
and rxq_assign_existing_worker_destroy fix that a pure move leaves every TX map
untouched). -/
def rxq_assign_move_existing (s : WorkerState) (port_id queue_id cpu_id : Nat) : WorkerState :=
  let ws3 := move_rxqs s.workers port_id queue_id cpu_id
  let ws4 := ws3.filter (fun w => !w.rxqs.isEmpty)
  if ws3.any (fun w => w.rxqs.isEmpty) then ⟨renumber_txqs s.ports ws4 0, s.ports⟩
  else ⟨ws4, s.ports⟩

/-- Modelled from the spec: the mutation part of worker_rxq_assign when a new
worker has to be created for cpu_id (design document, section 4.3 steps 2-5):
insert the new worker at the head of the list (LIST_INSERT_HEAD, as the tests
rxq_assign_new_worker and rxq_assign_new_worker2 fix), extend every port's
n_txq by one, move the RX queue map, destroy workers whose rxqs became empty,
and renumber every TX map in list order. -/
def rxq_assign_move_new (s : WorkerState) (port_id queue_id cpu_id : Nat) : WorkerState :=
  let ports1 := s.ports.map (fun p => { p with n_txq := p.n_txq + 1 })
  let ws3 := move_rxqs (⟨cpu_id, [], []⟩ :: s.workers) port_id queue_id cpu_id
  let ws4 := ws3.filter (fun w => !w.rxqs.isEmpty)
  ⟨renumber_txqs ports1 ws4 0, ports1⟩

/-- Modelled from the spec: the mutation part of worker_rxq_assign (design
document, section 4.3 steps 2-5), reached after validation and the no-op
short-circuit: find or create the destination worker and apply the move. -/
def rxq_assign_move (s : WorkerState) (port_id queue_id cpu_id : Nat) : WorkerState :=
  if s.workers.any (fun w => w.cpu_id == cpu_id) then
    rxq_assign_move_existing s port_id queue_id cpu_id
  else
    rxq_assign_move_new s port_id queue_id cpu_id

/-- Modelled from the spec: worker_rxq_assign (design document, section 4.3;
validated against the unit tests in worker_test.c). Validation first, in the
order fixed by the tests rxq_assign_main_lcore and rxq_assign_invalid_cpu: the
main lcore gives EBUSY, a CPU outside the allowance ERANGE, an unknown port or
a queue id out of range ENODEV. Then the no-op short-circuit when the queue
already sits on the target CPU, else the move. Errors return the state
untouched. -/
def worker_rxq_assign (env : CpuEnv) (s : WorkerState) (port_id queue_id cpu_id : Nat) :
    Option Errno × WorkerState :=
  if cpu_id == env.main_lcore then
    (some .EBUSY, s)
  else if !(env.cpu_allowed cpu_id) then
    (some .ERANGE, s)
  else
    match s.ports.find? (fun p => p.port_id == port_id) with
    | none => (some .ENODEV, s)
    | some port =>
      if queue_id < port.n_rxq then
        match s.workers.find? (worker_owns port_id queue_id) with
        | some src =>
          if src.cpu_id == cpu_id then (none, s)
          else (none, rxq_assign_move s port_id queue_id cpu_id)
        | none => (none, rxq_assign_move s port_id queue_id cpu_id)
      else
        (some .ENODEV, s)

/-- A TX queue map list carries index i for a port list: exactly one entry per
known port, and every entry for a known port carries queue id i. -/
def txqs_indexed (ports : List Port) (t : List QueueMap) (i : Nat) : Prop :=
  ∀ p ∈ ports, t.countP (fun qm => qm.port_id == p.port_id) = 1 ∧
    ∀ qm ∈ t, qm.port_id = p.port_id → qm.queue_id = i

/-- The symmetric TX map invariant (design document, sections 4.3 and 8): every
live worker has an index, the indices are a bijection onto the interval from 0
to the worker count, and each worker's txqs contain exactly one entry per known
port whose queue id is the worker's index. -/
def txq_invariant (s : WorkerState) : Prop :=
  ∃ idx : List Nat, idx.Perm (List.range s.workers.length) ∧
    List.Forall₂ (fun (w : Worker) (i : Nat) => txqs_indexed s.ports w.txqs i) s.workers idx

/-! Concrete data used by witnesses and model-validation theorems. -/

/-- A unicast IPv6 address. -/
def addrU : IP6 := ⟨[0x20, 0x01, 0, 0, 0, 0, 0, 0, 0, 0, 0, 0, 0, 0, 0, 1]⟩

/-- Another unicast IPv6 address. -/
def addrU2 : IP6 := ⟨[0x20, 0x01, 0, 0, 0, 0, 0, 0, 0, 0, 0, 0, 0, 0, 0, 2]⟩

/-- A multicast IPv6 address (first byte 0xff). -/
def addrM : IP6 := ⟨[0xff, 0x02, 0, 0, 0, 0, 0, 0, 0, 0, 0, 0, 0, 0, 0, 0x16]⟩

/-- A sample link-layer address. -/
def macA : Mac := ⟨[2, 0, 0, 0, 0, 1]⟩

/-- A reachable next hop on interface 7. -/
def nhReach : Nexthop6 := ⟨0, 7, addrU, macA, true, false, false, [], 0⟩

/-- An unresolved next hop with an empty hold queue. -/
def nhCold : Nexthop6 := ⟨0, 7, addrU, macA, false, false, false, [], 0⟩

/-- An unresolved next hop whose hold queue is at the limit. -/
def nhFull : Nexthop6 := ⟨0, 7, addrU, macA, false, true, false, List.range 256, 256⟩

/-- An unresolved connected-route (LINK) next hop. -/
def nhLink : Nexthop6 := ⟨0, 7, addrU, macA, false, false, true, [], 0⟩

/-- The interface of the sample next hops. -/
def iface7 : Iface := ⟨7, 3⟩

/-- A sample ip6_output environment: interface 7 registered, no tunnel
override, next-hop allocation succeeding with an unresolved next hop for the
requested address, route insertion succeeding. -/
def envIp6 : Ip6Env :=
  ⟨[iface7], [], fun v i a => some ⟨v, i, a, macA, false, false, false, [], 0⟩, fun _ _ _ => true⟩

/-- The CPU environment of the worker tests while common_mocks is in force:
main lcore 0, every CPU allowed. -/
def cpuEnvAll : CpuEnv := ⟨0, fun _ => true⟩

/-- The CPU environment of the rxq_assign_main_lcore test: main lcore 4. -/
def cpuEnvMain4 : CpuEnv := ⟨4, fun _ => true⟩

/-- The CPU environment of the rxq_assign_invalid_cpu test: CPU 9999 outside
the allowance. -/
def cpuEnvNo9999 : CpuEnv := ⟨0, fun cp => cp != 9999⟩

/-- The ports of the worker test setup (p0, p1, p2, two RX queues each),
head-inserted so the list is most recently inserted first. -/
def ports3 : List Port := [⟨2, 2, 2⟩, ⟨1, 2, 2⟩, ⟨0, 2, 2⟩]

/-- Worker w1 of the worker test setup. -/
def w1Init : Worker :=
  ⟨1, [⟨0, 0, true⟩, ⟨0, 1, true⟩, ⟨1, 0, true⟩],
      [⟨0, 0, true⟩, ⟨1, 0, true⟩, ⟨2, 0, true⟩]⟩

/-- Worker w2 of the worker test setup. -/
def w2Init : Worker :=
  ⟨2, [⟨1, 1, true⟩, ⟨2, 0, true⟩, ⟨2, 1, true⟩],
      [⟨0, 1, true⟩, ⟨1, 1, true⟩, ⟨2, 1, true⟩]⟩

/-- The initial state of the worker test group. -/
def wtState0 : WorkerState := ⟨[w2Init, w1Init], ports3⟩

/-- State after rxq_assign_existing_worker: worker_rxq_assign(1, 1, 1). -/
def wtState1 : WorkerState := (worker_rxq_assign cpuEnvAll wtState0 1 1 1).2

/-- State after the first call of rxq_assign_existing_worker_destroy:
worker_rxq_assign(2, 0, 1). -/
def wtState2 : WorkerState := (worker_rxq_assign cpuEnvAll wtState1 2 0 1).2

/-- State after the second call of rxq_assign_existing_worker_destroy:
worker_rxq_assign(2, 1, 1); w2 is destroyed. -/
def wtState3 : WorkerState := (worker_rxq_assign cpuEnvAll wtState2 2 1 1).2

/-- State after rxq_assign_new_worker: worker_rxq_assign(2, 1, 2) creates a
worker on cpu 2. -/
def wtState4 : WorkerState := (worker_rxq_assign cpuEnvAll wtState3 2 1 2).2

/-- State after rxq_assign_new_worker_destroy: worker_rxq_assign(2, 1, 3)
creates a worker on cpu 3 and destroys the one on cpu 2. -/
def wtState5 : WorkerState := (worker_rxq_assign cpuEnvAll wtState4 2 1 3).2

/-- State after rxq_assign_new_worker2: worker_rxq_assign(2, 0, 2) creates a
third worker on cpu 2. -/
def wtState6 : WorkerState := (worker_rxq_assign cpuEnvAll wtState5 2 0 2).2

/-- A single worker owning every RX queue of the three test ports, with TX
queue id 0 everywhere: the state reached by the worker test group right before
rxq_assign_new_worker. -/
def w1All : Worker :=
  ⟨1, [⟨0, 0, true⟩, ⟨0, 1, true⟩, ⟨1, 0, true⟩, ⟨1, 1, true⟩, ⟨2, 0, true⟩, ⟨2, 1, true⟩],
      [⟨2, 0, true⟩, ⟨1, 0, true⟩, ⟨0, 0, true⟩]⟩

/-- The one-worker state used to exercise worker creation. -/
def c1State : WorkerState := ⟨[w1All], ports3⟩

/-- The (port, queue) pairs of a queue map list, the projection the test macro
assert_qmaps compares on. -/
def qmapPairs (l : List QueueMap) : List (Nat × Nat) :=
  l.map (fun qm => (qm.port_id, qm.queue_id))

/-- The per-worker (cpu, rxq pairs, txq pairs) view of a state. -/
def stateView (s : WorkerState) : List (Nat × List (Nat × Nat) × List (Nat × Nat)) :=
  s.workers.map (fun w => (w.cpu_id, qmapPairs w.rxqs, qmapPairs w.txqs))

/-! Model validation: the modelled worker_rxq_assign reproduces every scenario
of worker_test.c (queue map lists compared as sets, as the assert_qmaps macro
of the test does). -/

/-- The four validation tests: rxq_assign_main_lcore, rxq_assign_invalid_cpu,
rxq_assign_invalid_port, rxq_assign_invalid_rxq. -/
theorem model_matches_validation_tests :
    worker_rxq_assign cpuEnvMain4 wtState0 0 0 4 = (some .EBUSY, wtState0) ∧
    worker_rxq_assign cpuEnvNo9999 wtState0 0 0 9999 = (some .ERANGE, wtState0) ∧
    worker_rxq_assign cpuEnvAll wtState0 9999 0 1 = (some .ENODEV, wtState0) ∧
    worker_rxq_assign cpuEnvAll wtState0 0 9999 1 = (some .ENODEV, wtState0) := by
  decide

/-- The rxq_assign_already_set test: moving a queue to the CPU that already
polls it is a no-op. -/
theorem model_matches_already_set :
    worker_rxq_assign cpuEnvAll wtState0 1 1 2 = (none, wtState0) := by
  decide

/-- The rxq_assign_existing_worker test. -/
theorem model_matches_existing_worker :
    (worker_rxq_assign cpuEnvAll wtState0 1 1 1).1 = none ∧
    worker_count wtState1 = 2 ∧
    stateView wtState1 =
      [(2, [(2, 0), (2, 1)], [(0, 1), (1, 1), (2, 1)]),
       (1, [(0, 0), (0, 1), (1, 0), (1, 1)], [(0, 0), (1, 0), (2, 0)])] := by
  decide

/-- The rxq_assign_existing_worker_destroy test: after the second call w2 is
destroyed and w1 is renumbered to TX queue id 0 on every port. -/
theorem model_matches_existing_worker_destroy :
    worker_count wtState2 = 2 ∧
    stateView wtState2 =
      [(2, [(2, 1)], [(0, 1), (1, 1), (2, 1)]),
       (1, [(0, 0), (0, 1), (1, 0), (1, 1), (2, 0)], [(0, 0), (1, 0), (2, 0)])] ∧
    worker_count wtState3 = 1 ∧
    stateView wtState3 =
      [(1, [(0, 0), (0, 1), (1, 0), (1, 1), (2, 0), (2, 1)], [(2, 0), (1, 0), (0, 0)])] := by
  decide

/-- The rxq_assign_new_worker test: the created worker takes TX queue id 0 and
the pre-existing worker w1 moves from TX queue id 0 to TX queue id 1. -/
theorem model_matches_new_worker :
    worker_count wtState4 = 2 ∧
    stateView wtState4 =
      [(2, [(2, 1)], [(2, 0), (1, 0), (0, 0)]),
       (1, [(0, 0), (0, 1), (1, 0), (1, 1), (2, 0)], [(2, 1), (1, 1), (0, 1)])] := by
  decide

/-- The rxq_assign_new_worker_destroy and rxq_assign_new_worker2 tests. -/
theorem model_matches_new_worker2 :
    worker_count wtState5 = 2 ∧
    stateView wtState5 =
      [(3, [(2, 1)], [(2, 0), (1, 0), (0, 0)]),
       (1, [(0, 0), (0, 1), (1, 0), (1, 1), (2, 0)], [(2, 1), (1, 1), (0, 1)])] ∧
    worker_count wtState6 = 3 ∧
    stateView wtState6 =
      [(2, [(2, 0)], [(2, 0), (1, 0), (0, 0)]),
       (3, [(2, 1)], [(2, 1), (1, 1), (0, 1)]),
       (1, [(0, 0), (0, 1), (1, 0), (1, 1)], [(2, 2), (1, 2), (0, 2)])] := by
  decide

/-! Claim theorems. -/

/-- C2: the claim says tx_process calls the driver burst-send exactly once per
maximal run of consecutive packets sharing a port id. On the burst of two
packets with TX metadata ports 0 then 1 and a driver accepting everything, the
code performs a single driver call, for the second run only: the assignment of
burst_start before the guard of the intermediate flush (tx.c lines 61-62) makes
that flush dead code, so the first packet is neither sent nor enqueued on any
edge. -/
theorem tx_process_drops_intermediate_run :
    tx_process (fun _ _ n => n) ⟨fun _ => 0⟩ [⟨10, some 0⟩, ⟨11, some 1⟩] =
      (1, ⟨[(1, 0, [⟨11, some 1⟩])], [], []⟩) := by
  decide

/-- C8: maybe_hold_packet never grows held_pkts_num past IP6_NH_MAX_HELD_PKTS:
if the counter is within the bound before the call it is within the bound after
it. -/
theorem maybe_hold_packet_bounded (nh : Nexthop6) (pkt : Pkt)
    (h : nh.held_pkts_num ≤ IP6_NH_MAX_HELD_PKTS) :
    (maybe_hold_packet nh pkt).nh.held_pkts_num ≤ IP6_NH_MAX_HELD_PKTS := by
  unfold maybe_hold_packet
  split
  · exact h
  · split
    · rename_i hlt
      dsimp only
      split
      · exact hlt
      · exact hlt
    · exact h

/-- Witness for C8 at a full hold queue (256 held packets) and at an empty one. -/
theorem maybe_hold_packet_bounded_witness :
    (nhFull.held_pkts_num ≤ IP6_NH_MAX_HELD_PKTS ∧
      (maybe_hold_packet nhFull ⟨1, addrU2, none⟩).nh.held_pkts_num ≤ IP6_NH_MAX_HELD_PKTS) ∧
    (nhCold.held_pkts_num ≤ IP6_NH_MAX_HELD_PKTS ∧
      (maybe_hold_packet nhCold ⟨1, addrU2, none⟩).nh.held_pkts_num ≤ IP6_NH_MAX_HELD_PKTS) :=
  ⟨⟨by decide, maybe_hold_packet_bounded nhFull ⟨1, addrU2, none⟩ (by decide)⟩,
   ⟨by decide, maybe_hold_packet_bounded nhCold ⟨1, addrU2, none⟩ (by decide)⟩⟩

/-- C9: ip6_output_add_tunnel aborts the process when the interface type id is
the undefined type or at least 128 (the dimension of the edges array), aborts
when a next node is already registered for that type, and otherwise records the
new edge in the override table. -/
theorem add_tunnel_aborts_or_records (tbl : List Nat) (t e : Nat) :
    ((t = GR_IFACE_TYPE_UNDEF ∨ 128 ≤ t) → ip6_output_add_tunnel tbl t e = none) ∧
    (t ≠ GR_IFACE_TYPE_UNDEF → t < 128 → tbl.getD t ETH_OUTPUT ≠ ETH_OUTPUT →
      ip6_output_add_tunnel tbl t e = none) ∧
    (t ≠ GR_IFACE_TYPE_UNDEF → t < 128 → tbl.getD t ETH_OUTPUT = ETH_OUTPUT →
      ip6_output_add_tunnel tbl t e = some (tbl.set t e)) := by
  refine ⟨fun h => ?_, fun h1 h2 h3 => ?_, fun h1 h2 h3 => ?_⟩
  · rcases h with h | h
    · simp [ip6_output_add_tunnel, h]
    · simp [ip6_output_add_tunnel, h]
  · simp only [List.getD_eq_getElem?_getD] at h3
    simp [ip6_output_add_tunnel, h1, Nat.not_le.mpr h2, h3]
  · simp only [List.getD_eq_getElem?_getD] at h3
    simp [ip6_output_add_tunnel, h1, Nat.not_le.mpr h2, h3]

/-- Witness for C9: type id 0 (undefined) and 128 abort, a second registration
for type 3 aborts, a first registration for type 3 is recorded. -/
theorem add_tunnel_aborts_or_records_witness :
    ip6_output_add_tunnel [0, 0, 0, 0] 0 9 = none ∧
    ip6_output_add_tunnel [0, 0, 0, 0] 128 9 = none ∧
    ip6_output_add_tunnel [0, 0, 0, 5] 3 9 = none ∧
    ip6_output_add_tunnel [0, 0, 0, 0] 3 9 = some [0, 0, 0, 9] :=
  ⟨(add_tunnel_aborts_or_records [0, 0, 0, 0] 0 9).1 (Or.inl rfl),
   (add_tunnel_aborts_or_records [0, 0, 0, 0] 128 9).1 (Or.inr (by decide)),
   (add_tunnel_aborts_or_records [0, 0, 0, 5] 3 9).2.1 (by decide) (by decide) (by decide),
   (add_tunnel_aborts_or_records [0, 0, 0, 0] 3 9).2.2 (by decide) (by decide) (by decide)⟩

/-- C6: worker_rxq_assign validation: the main (control plane) CPU fails with
EBUSY; a CPU outside the process allowance fails with ERANGE; an unknown port id
or a queue id not below the port's n_rxq fails with ENODEV; in each failure case
the returned state is exactly the input state, so no worker's rxqs or txqs, and
no port, is changed. -/
theorem rxq_assign_validation_no_change (env : CpuEnv) (s : WorkerState) (p q c : Nat) :
    (c = env.main_lcore → worker_rxq_assign env s p q c = (some .EBUSY, s)) ∧
    (c ≠ env.main_lcore → env.cpu_allowed c = false →
      worker_rxq_assign env s p q c = (some .ERANGE, s)) ∧
    (c ≠ env.main_lcore → env.cpu_allowed c = true →
      s.ports.find? (fun pp => pp.port_id == p) = none →
      worker_rxq_assign env s p q c = (some .ENODEV, s)) ∧
    (∀ port, c ≠ env.main_lcore → env.cpu_allowed c = true →
      s.ports.find? (fun pp => pp.port_id == p) = some port → ¬ q < port.n_rxq →
      worker_rxq_assign env s p q c = (some .ENODEV, s)) := by
  refine ⟨fun h => ?_, fun h1 h2 => ?_, fun h1 h2 h3 => ?_, fun port h1 h2 h3 h4 => ?_⟩
  · simp [worker_rxq_assign, h]
  · simp [worker_rxq_assign, h1, h2]
  · simp [worker_rxq_assign, h1, h2, h3]
  · simp [worker_rxq_assign, h1, h2, h3, h4]

/-- Witness for C6: the four validation scenarios of worker_test.c, each
leaving the test state untouched. -/
theorem rxq_assign_validation_no_change_witness :
    worker_rxq_assign cpuEnvMain4 wtState0 0 0 4 = (some .EBUSY, wtState0) ∧
    worker_rxq_assign cpuEnvNo9999 wtState0 0 0 9999 = (some .ERANGE, wtState0) ∧
    worker_rxq_assign cpuEnvAll wtState0 9999 0 1 = (some .ENODEV, wtState0) ∧
    worker_rxq_assign cpuEnvAll wtState0 0 9999 1 = (some .ENODEV, wtState0) :=
  ⟨(rxq_assign_validation_no_change cpuEnvMain4 wtState0 0 0 4).1 rfl,
   (rxq_assign_validation_no_change cpuEnvNo9999 wtState0 0 0 9999).2.1 (by decide) rfl,
   (rxq_assign_validation_no_change cpuEnvAll wtState0 9999 0 1).2.2.1 (by decide) rfl
     (by decide),
   (rxq_assign_validation_no_change cpuEnvAll wtState0 0 9999 1).2.2.2 ⟨0, 2, 2⟩ (by decide)
     rfl (by decide) (by decide)⟩

/-- C3: the hold-queue step of the IPv6 output node. If the next hop is
REACHABLE or the destination is multicast the status is OK_TO_SEND and the next
hop is untouched. Otherwise, when held_pkts_num is strictly below
IP6_NH_MAX_HELD_PKTS, the packet is appended to the held-packet list, the
counter grows by one, PENDING is set, ip6_nexthop_solicit is called exactly
when PENDING was not already set, the status is HELD and the packet is not
enqueued on any edge. Otherwise the next hop is untouched and the packet is
enqueued on the QUEUE_FULL edge. -/
theorem ip6_output_hold_queue_discipline (pkt : Pkt) (iface : Iface)
    (route : Option (Nat × IP6 × Nat × Nexthop6)) (nh : Nexthop6) :
    ((nh.reachable = true ∨ rte_ipv6_addr_is_mcast pkt.dst = true) →
      (maybe_hold_packet nh pkt).status = .OK_TO_SEND ∧ (maybe_hold_packet nh pkt).nh = nh) ∧
    (nh.reachable = false → rte_ipv6_addr_is_mcast pkt.dst = false →
      nh.held_pkts_num < IP6_NH_MAX_HELD_PKTS →
      (maybe_hold_packet nh pkt).status = .HELD ∧
      (maybe_hold_packet nh pkt).nh.held_pkts = nh.held_pkts ++ [pkt.id] ∧
      (maybe_hold_packet nh pkt).nh.held_pkts_num = nh.held_pkts_num + 1 ∧
      (maybe_hold_packet nh pkt).nh.pending = true ∧
      (maybe_hold_packet nh pkt).solicited = !nh.pending ∧
      (ip6_output_hold pkt iface route nh).action = .held) ∧
    (nh.reachable = false → rte_ipv6_addr_is_mcast pkt.dst = false →
      ¬ nh.held_pkts_num < IP6_NH_MAX_HELD_PKTS →
      (maybe_hold_packet nh pkt).status = .HOLD_QUEUE_FULL ∧
      (maybe_hold_packet nh pkt).nh = nh ∧
      (ip6_output_hold pkt iface route nh).action = .enqueued QUEUE_FULL) := by
  refine ⟨fun h => ?_, fun h1 h2 h3 => ?_, fun h1 h2 h3 => ?_⟩
  · rcases h with h | h
    · simp [maybe_hold_packet, h]
    · simp [maybe_hold_packet, h]
  · cases hp : nh.pending <;>
      simp [maybe_hold_packet, ip6_output_hold, h1, h2, h3, hp]
  · simp [maybe_hold_packet, ip6_output_hold, h1, h2, h3]

/-- Witness for C3: a reachable next hop sends, an unresolved next hop below
the limit holds without enqueueing, a full hold queue goes to QUEUE_FULL. -/
theorem ip6_output_hold_queue_discipline_witness :
    ((maybe_hold_packet nhReach ⟨1, addrU2, none⟩).status = .OK_TO_SEND ∧
      (maybe_hold_packet nhReach ⟨1, addrU2, none⟩).nh = nhReach) ∧
    ((maybe_hold_packet nhCold ⟨1, addrU2, none⟩).status = .HELD ∧
      (maybe_hold_packet nhCold ⟨1, addrU2, none⟩).nh.held_pkts = nhCold.held_pkts ++ [1] ∧
      (maybe_hold_packet nhCold ⟨1, addrU2, none⟩).nh.held_pkts_num =
        nhCold.held_pkts_num + 1 ∧
      (maybe_hold_packet nhCold ⟨1, addrU2, none⟩).nh.pending = true ∧
      (maybe_hold_packet nhCold ⟨1, addrU2, none⟩).solicited = !nhCold.pending ∧
      (ip6_output_hold ⟨1, addrU2, none⟩ iface7 none nhCold).action = .held) ∧
    ((maybe_hold_packet nhFull ⟨1, addrU2, none⟩).status = .HOLD_QUEUE_FULL ∧
      (maybe_hold_packet nhFull ⟨1, addrU2, none⟩).nh = nhFull ∧
      (ip6_output_hold ⟨1, addrU2, none⟩ iface7 none nhFull).action = .enqueued QUEUE_FULL) :=
  ⟨(ip6_output_hold_queue_discipline ⟨1, addrU2, none⟩ iface7 none nhReach).1 (Or.inl rfl),
   (ip6_output_hold_queue_discipline ⟨1, addrU2, none⟩ iface7 none nhCold).2.1 rfl (by decide)
     (by decide),
   (ip6_output_hold_queue_discipline ⟨1, addrU2, none⟩ iface7 none nhFull).2.2 rfl (by decide)
     (by decide)⟩

/-- C7: for a packet that reaches OK_TO_SEND, the eth-output metadata holds the
MAC derived from the IPv6 multicast address when the destination is multicast
and the next hop's link-layer address otherwise, the ether type IPv6 in big
endian, and the resolved egress interface, and the packet is enqueued on the
ETH_OUTPUT edge counted as sent. A multicast destination reaches OK_TO_SEND
for every next hop, so regardless of the REACHABLE flag. The last conjunct ties
the hold step to ip6_output_process: a packet whose next hop resolves to iface,
with no tunnel override and no /128 promotion, is processed exactly by the hold
step on that resolved interface. -/
theorem ip6_output_ok_to_send_eth (env : Ip6Env) (pkt : Pkt) (iface : Iface)
    (route : Option (Nat × IP6 × Nat × Nexthop6)) (nh nh2 : Nexthop6) :
    ((maybe_hold_packet nh pkt).status = .OK_TO_SEND →
      (ip6_output_hold pkt iface route nh).action = .enqueued ETH_OUTPUT ∧
      (ip6_output_hold pkt iface route nh).eth =
        some ⟨if rte_ipv6_addr_is_mcast pkt.dst then rte_ether_mcast_from_ipv6 pkt.dst
              else nh.lladdr,
              RTE_BE16 RTE_ETHER_TYPE_IPV6, iface⟩ ∧
      (ip6_output_hold pkt iface route nh).sent = true) ∧
    (rte_ipv6_addr_is_mcast pkt.dst = true →
      (maybe_hold_packet nh2 pkt).status = .OK_TO_SEND) ∧
    (pkt.nh = some nh →
      env.ifaces.find? (fun it => it.id == nh.iface_id) = some iface →
      env.edges.getD iface.type_id ETH_OUTPUT = ETH_OUTPUT →
      (nh.link && !rte_ipv6_addr_is_mcast pkt.dst && !(pkt.dst == nh.ip)) = false →
      ip6_output_one env pkt = ip6_output_hold pkt iface none nh) := by
  refine ⟨fun h => ?_, fun h => ?_, fun h1 h2 h3 h4 => ?_⟩
  · simp [ip6_output_hold, h]
  · simp [maybe_hold_packet, h]
  · simp only [List.getD_eq_getElem?_getD] at h3
    simp [ip6_output_one, h1, h2, h3, h4]

/-- Witness for C7: a multicast packet on an unresolved next hop is sent on
ETH_OUTPUT with the 33:33 derived MAC, and a unicast packet on a reachable next
hop is sent with the next hop's link-layer address, through ip6_output_one on
the sample environment. -/
theorem ip6_output_ok_to_send_eth_witness :
    ((ip6_output_hold ⟨1, addrM, none⟩ iface7 none nhCold).action = .enqueued ETH_OUTPUT ∧
      (ip6_output_hold ⟨1, addrM, none⟩ iface7 none nhCold).eth =
        some ⟨rte_ether_mcast_from_ipv6 addrM, RTE_BE16 RTE_ETHER_TYPE_IPV6, iface7⟩ ∧
      (ip6_output_hold ⟨1, addrM, none⟩ iface7 none nhCold).sent = true) ∧
    ((maybe_hold_packet nhCold ⟨1, addrM, none⟩).status = .OK_TO_SEND) ∧
    (ip6_output_one envIp6 ⟨2, addrU, some nhReach⟩ =
      ip6_output_hold ⟨2, addrU, some nhReach⟩ iface7 none nhReach) := by
  refine ⟨?_, ?_, ?_⟩
  · have h := (ip6_output_ok_to_send_eth envIp6 ⟨1, addrM, none⟩ iface7 none nhCold nhCold).1
      (by decide)
    refine ⟨h.1, ?_, h.2.2⟩
    · rw [h.2.1]
      decide
  · exact (ip6_output_ok_to_send_eth envIp6 ⟨1, addrM, none⟩ iface7 none nhCold nhCold).2.1
      (by decide)
  · exact (ip6_output_ok_to_send_eth envIp6 ⟨2, addrU, some nhReach⟩ iface7 none nhReach
      nhReach).2.2 rfl (by decide) (by decide) (by decide)

/-- C4: in ip6_output_process, a packet whose next hop has the LINK flag, with
a unicast destination different from the next hop's address (and a resolved
interface with no tunnel override), takes the /128 promotion: when the next-hop
allocation and the route insertion both succeed, a route (vrf, destination,
/128) to the new entry is inserted, the packet's nh metadata is swapped to the
new entry, and hold processing runs on the new entry; when the allocation or
the insertion fails the packet is enqueued on the ERROR edge. -/
theorem ip6_output_link_promotion (env : Ip6Env) (pkt : Pkt) (nh : Nexthop6) (iface : Iface)
    (h1 : pkt.nh = some nh)
    (h2 : env.ifaces.find? (fun it => it.id == nh.iface_id) = some iface)
    (h3 : env.edges.getD iface.type_id ETH_OUTPUT = ETH_OUTPUT)
    (h4 : nh.link = true) (h5 : rte_ipv6_addr_is_mcast pkt.dst = false)
    (h6 : (pkt.dst == nh.ip) = false) :
    (env.nexthop_new nh.vrf_id nh.iface_id pkt.dst = none →
      (ip6_output_one env pkt).action = .enqueued ERROR) ∧
    (∀ remote, env.nexthop_new nh.vrf_id nh.iface_id pkt.dst = some remote →
      (env.route_insert_ok nh.vrf_id pkt.dst RTE_IPV6_MAX_DEPTH = false →
        (ip6_output_one env pkt).action = .enqueued ERROR) ∧
      (env.route_insert_ok nh.vrf_id pkt.dst RTE_IPV6_MAX_DEPTH = true →
        ip6_output_one env pkt =
          ip6_output_hold pkt iface (some (nh.vrf_id, pkt.dst, RTE_IPV6_MAX_DEPTH, remote))
            remote ∧
        (ip6_output_one env pkt).route_inserted =
          some (nh.vrf_id, pkt.dst, RTE_IPV6_MAX_DEPTH, remote) ∧
        (ip6_output_one env pkt).nh_meta = some remote ∧
        (ip6_output_one env pkt).nh_after = some (maybe_hold_packet remote pkt).nh)) := by
  simp only [List.getD_eq_getElem?_getD] at h3
  refine ⟨fun h => ?_, fun remote hr => ⟨fun hf => ?_, fun hok => ?_⟩⟩
  · simp [ip6_output_one, h1, h2, h3, h4, h5, h6, h]
  · simp [ip6_output_one, h1, h2, h3, h4, h5, h6, hr, hf]
  · have he : ip6_output_one env pkt =
        ip6_output_hold pkt iface (some (nh.vrf_id, pkt.dst, RTE_IPV6_MAX_DEPTH, remote))
          remote := by
      simp [ip6_output_one, h1, h2, h3, h4, h5, h6, hr, hok]
    refine ⟨he, ?_, ?_, ?_⟩ <;>
      · rw [he]
        unfold ip6_output_hold
        cases hs : (maybe_hold_packet remote pkt).status <;> simp [hs]

/-- Witness for C4: on the sample environment, a unicast packet over the
connected-route next hop nhLink is promoted: the /128 route to the new entry is
recorded and the metadata swapped to it. -/
theorem ip6_output_link_promotion_witness :
    (ip6_output_one envIp6 ⟨3, addrU2, some nhLink⟩).route_inserted =
      some (0, addrU2, 128, ⟨0, 7, addrU2, macA, false, false, false, [], 0⟩) ∧
    (ip6_output_one envIp6 ⟨3, addrU2, some nhLink⟩).nh_meta =
      some ⟨0, 7, addrU2, macA, false, false, false, [], 0⟩ := by
  have h := ((ip6_output_link_promotion envIp6 ⟨3, addrU2, some nhLink⟩ nhLink iface7 rfl
    (by decide) (by decide) (by decide) (by decide) (by decide)).2
    ⟨0, 7, addrU2, macA, false, false, false, [], 0⟩ rfl).2 rfl
  exact ⟨h.2.1, h.2.2.1⟩

/-- C10: on the /128 promotion path the packet's nh metadata is updated only
after both the next-hop creation and the route insertion have succeeded: when
the allocation fails, or when it succeeds and the insertion fails, the packet
goes to the ERROR edge with its metadata still the original connected-route
next hop and no route recorded; only when both succeed does the metadata become
the new entry. -/
theorem ip6_output_promotion_meta_on_failure (env : Ip6Env) (pkt : Pkt) (nh : Nexthop6)
    (iface : Iface)
    (h1 : pkt.nh = some nh)
    (h2 : env.ifaces.find? (fun it => it.id == nh.iface_id) = some iface)
    (h3 : env.edges.getD iface.type_id ETH_OUTPUT = ETH_OUTPUT)
    (h4 : nh.link = true) (h5 : rte_ipv6_addr_is_mcast pkt.dst = false)
    (h6 : (pkt.dst == nh.ip) = false) :
    (env.nexthop_new nh.vrf_id nh.iface_id pkt.dst = none →
      (ip6_output_one env pkt).action = .enqueued ERROR ∧
      (ip6_output_one env pkt).nh_meta = some nh ∧
      (ip6_output_one env pkt).route_inserted = none) ∧
    (∀ remote, env.nexthop_new nh.vrf_id nh.iface_id pkt.dst = some remote →
      (env.route_insert_ok nh.vrf_id pkt.dst RTE_IPV6_MAX_DEPTH = false →
        (ip6_output_one env pkt).action = .enqueued ERROR ∧
        (ip6_output_one env pkt).nh_meta = some nh ∧
        (ip6_output_one env pkt).route_inserted = none) ∧
      (env.route_insert_ok nh.vrf_id pkt.dst RTE_IPV6_MAX_DEPTH = true →
        (ip6_output_one env pkt).nh_meta = some remote)) := by
  simp only [List.getD_eq_getElem?_getD] at h3
  refine ⟨fun h => ?_, fun remote hr => ⟨fun hf => ?_, fun hok => ?_⟩⟩
  · simp [ip6_output_one, h1, h2, h3, h4, h5, h6, h]
  · simp [ip6_output_one, h1, h2, h3, h4, h5, h6, hr, hf]
  · have he : ip6_output_one env pkt =
        ip6_output_hold pkt iface (some (nh.vrf_id, pkt.dst, RTE_IPV6_MAX_DEPTH, remote))
          remote := by
      simp [ip6_output_one, h1, h2, h3, h4, h5, h6, hr, hok]
    rw [he]
    unfold ip6_output_hold
    cases hs : (maybe_hold_packet remote pkt).status <;> simp [hs]

/-- Witness for C10: on an environment whose route insertion fails, the packet
over nhLink goes to ERROR with its metadata still nhLink. -/
theorem ip6_output_promotion_meta_on_failure_witness :
    (ip6_output_one ⟨[iface7], [], envIp6.nexthop_new, fun _ _ _ => false⟩
        ⟨3, addrU2, some nhLink⟩).action = .enqueued ERROR ∧
    (ip6_output_one ⟨[iface7], [], envIp6.nexthop_new, fun _ _ _ => false⟩
        ⟨3, addrU2, some nhLink⟩).nh_meta = some nhLink ∧
    (ip6_output_one ⟨[iface7], [], envIp6.nexthop_new, fun _ _ _ => false⟩
        ⟨3, addrU2, some nhLink⟩).route_inserted = none :=
  ((ip6_output_promotion_meta_on_failure ⟨[iface7], [], envIp6.nexthop_new, fun _ _ _ => false⟩
      ⟨3, addrU2, some nhLink⟩ nhLink iface7 rfl (by decide) (by decide) (by decide)
      (by decide) (by decide)).2
    ⟨0, 7, addrU2, macA, false, false, false, [], 0⟩ rfl).1 rfl

/-! Helper lemmas for the TX map invariant of the assignment engine. -/

/-- Counting with the equality test on a list without duplicates gives one. -/
lemma countP_beq_one_of_nodup (l : List Nat) (hl : l.Nodup) (a : Nat) (ha : a ∈ l) :
    l.countP (fun x => x == a) = 1 := by
  induction l with
  | nil => cases ha
  | cons b t ih =>
    rcases List.nodup_cons.mp hl with ⟨hb, ht⟩
    rw [List.countP_cons]
    rcases List.mem_cons.mp ha with h | h
    · subst h
      have h0 : t.countP (fun x => x == a) = 0 :=
        List.countP_eq_zero.mpr (fun x hx => by
          simp only [beq_iff_eq]
          exact fun e => hb (e ▸ hx))
      simp [h0]
    · have hba : (b == a) = false := beq_eq_false_iff_ne.mpr (fun e => hb (e ▸ h))
      rw [ih ht h, hba]
      simp

/-- The freshly renumbered TX map of a worker at index i is indexed i for any
port list with pairwise distinct port ids. -/
lemma txqs_indexed_of_map (ports : List Port)
    (hnd : (ports.map (fun pp => pp.port_id)).Nodup) (i : Nat) :
    txqs_indexed ports (ports.map (fun p => (⟨p.port_id, i, true⟩ : QueueMap))) i := by
  intro p hp
  constructor
  · rw [List.countP_map]
    have he : ((fun qm : QueueMap => qm.port_id == p.port_id) ∘
        fun pp : Port => (⟨pp.port_id, i, true⟩ : QueueMap)) =
        ((fun x => x == p.port_id) ∘ fun pp : Port => pp.port_id) := rfl
    rw [he, ← List.countP_map]
    exact countP_beq_one_of_nodup _ hnd _
      (List.mem_map_of_mem (fun pp => pp.port_id) hp)
  · intro qm hqm _
    rcases List.mem_map.mp hqm with ⟨pp, _, rfl⟩
    rfl

/-- renumber_txqs preserves the number of workers. -/
lemma renumber_txqs_length (ports : List Port) :
    ∀ (ws : List Worker) (i : Nat), (renumber_txqs ports ws i).length = ws.length
  | [], _ => rfl
  | w :: ws, i => by
    rw [renumber_txqs, List.length_cons, List.length_cons,
      renumber_txqs_length ports ws (i + 1)]

/-- renumber_txqs assigns, worker by worker in list order, the TX map indexed
by the worker's position. -/
lemma renumber_txqs_forall₂ (ports : List Port)
    (hnd : (ports.map (fun pp => pp.port_id)).Nodup) :
    ∀ (ws : List Worker) (i : Nat),
      List.Forall₂ (fun (w : Worker) (j : Nat) => txqs_indexed ports w.txqs j)
        (renumber_txqs ports ws i) (List.range' i ws.length)
  | [], i => by
    rw [renumber_txqs]
    exact List.Forall₂.nil
  | w :: ws, i => by
    rw [renumber_txqs, List.length_cons, List.range'_succ]
    exact List.Forall₂.cons (txqs_indexed_of_map ports hnd i)
      (renumber_txqs_forall₂ ports hnd ws (i + 1))

/-- renumber_txqs gives every entry of every worker's TX map the worker's
position as queue id. -/
lemma renumber_txqs_qids (ports : List Port) :
    ∀ (ws : List Worker) (i : Nat),
      List.Forall₂ (fun (w : Worker) (j : Nat) => ∀ qm ∈ w.txqs, qm.queue_id = j)
        (renumber_txqs ports ws i) (List.range' i ws.length)
  | [], i => by
    rw [renumber_txqs]
    exact List.Forall₂.nil
  | w :: ws, i => by
    rw [renumber_txqs, List.length_cons, List.range'_succ]
    refine List.Forall₂.cons (fun qm hqm => ?_) (renumber_txqs_qids ports ws (i + 1))
    rcases List.mem_map.mp hqm with ⟨pp, _, rfl⟩
    rfl

/-- A state whose workers were just renumbered satisfies the TX map invariant. -/
lemma renumber_invariant (ports : List Port) (ws : List Worker)
    (hnd : (ports.map (fun pp => pp.port_id)).Nodup) :
    txq_invariant ⟨renumber_txqs ports ws 0, ports⟩ := by
  refine ⟨List.range' 0 ws.length, ?_, renumber_txqs_forall₂ ports hnd ws 0⟩
  show (List.range' 0 ws.length).Perm (List.range (renumber_txqs ports ws 0).length)
  rw [renumber_txqs_length ports ws 0, List.range_eq_range']

/-- move_rxqs preserves the number of workers. -/
lemma move_rxqs_length (ws : List Worker) (p q c : Nat) :
    (move_rxqs ws p q c).length = ws.length := by
  unfold move_rxqs
  rw [List.length_map, List.length_map]

/-- move_rxqs touches only the rxqs, so any TX map indexing carries over. -/
lemma forall₂_txqs_of_move (ports : List Port) (p q c : Nat) (ws : List Worker)
    (idx : List Nat)
    (h : List.Forall₂ (fun (w : Worker) (i : Nat) => txqs_indexed ports w.txqs i) ws idx) :
    List.Forall₂ (fun (w : Worker) (i : Nat) => txqs_indexed ports w.txqs i)
      (move_rxqs ws p q c) idx := by
  unfold move_rxqs
  rw [List.forall₂_map_left_iff, List.forall₂_map_left_iff]
  refine h.imp (fun w i hw => ?_)
  dsimp only
  split
  · exact hw
  · exact hw

/-- The TX map invariant is preserved by the mutation part of
worker_rxq_assign when the port ids are pairwise distinct. -/
lemma rxq_assign_move_preserves (s : WorkerState) (p q c : Nat)
    (hnd : (s.ports.map (fun pp => pp.port_id)).Nodup)
    (hinv : txq_invariant s) :
    txq_invariant (rxq_assign_move s p q c) := by
  unfold rxq_assign_move
  split
  · unfold rxq_assign_move_existing
    dsimp only
    split
    · exact renumber_invariant s.ports _ hnd
    · rename_i hd
      have hd' : (move_rxqs s.workers p q c).any (fun w => w.rxqs.isEmpty) = false := by
        simpa using hd
      have hfil : (move_rxqs s.workers p q c).filter (fun w => !w.rxqs.isEmpty)
          = move_rxqs s.workers p q c :=
        List.filter_eq_self.mpr (fun w hw => by
          simpa using List.any_eq_false.mp hd' w hw)
      rcases hinv with ⟨idx, hperm, hf⟩
      refine ⟨idx, ?_, ?_⟩
      · show idx.Perm (List.range (List.filter _ (move_rxqs s.workers p q c)).length)
        rw [hfil, move_rxqs_length]
        exact hperm
      · show List.Forall₂ _ (List.filter _ (move_rxqs s.workers p q c)) idx
        rw [hfil]
        exact forall₂_txqs_of_move s.ports p q c s.workers idx hf
  · unfold rxq_assign_move_new
    refine renumber_invariant _ _ ?_
    rw [List.map_map]
    exact hnd

/-- C5: after every successful worker_rxq_assign call on a state satisfying the
symmetric TX map invariant (with pairwise distinct port ids), the invariant
still holds: every live worker has exactly one TX entry per known port, that
entry's queue id is the worker's index, and the indices are a bijection onto
the interval from 0 to worker_count. -/
theorem rxq_assign_preserves_txq_invariant (env : CpuEnv) (s : WorkerState) (p q c : Nat)
    (s' : WorkerState)
    (hnd : (s.ports.map (fun pp => pp.port_id)).Nodup)
    (hinv : txq_invariant s)
    (h : worker_rxq_assign env s p q c = (none, s')) :
    txq_invariant s' := by
  unfold worker_rxq_assign at h
  split at h
  · simp at h
  · split at h
    · simp at h
    · split at h
      · simp at h
      · split at h
        · split at h
          · split at h
            · simp only [Prod.mk.injEq, true_and] at h
              rwa [← h]
            · simp only [Prod.mk.injEq, true_and] at h
              rw [← h]
              exact rxq_assign_move_preserves s p q c hnd hinv
          · simp only [Prod.mk.injEq, true_and] at h
            rw [← h]
            exact rxq_assign_move_preserves s p q c hnd hinv
        · simp at h

/-- Witness for C5: the worker test setup state satisfies the invariant (w2
indexed 1, w1 indexed 0) and so does the state after the successful call of the
rxq_assign_existing_worker test. -/
theorem rxq_assign_preserves_txq_invariant_witness :
    txq_invariant wtState1 :=
  rxq_assign_preserves_txq_invariant cpuEnvAll wtState0 1 1 1 wtState1 (by decide)
    ⟨[1, 0], by decide,
      List.Forall₂.cons (by unfold txqs_indexed; decide)
        (List.Forall₂.cons (by unfold txqs_indexed; decide) List.Forall₂.nil)⟩
    (by decide)

/-- Creating a worker: the fresh worker enters the moved list at the head with
the moved RX queue map as its only queue. -/
lemma move_rxqs_new_head (ws : List Worker) (p q c : Nat) :
    move_rxqs ((⟨c, [], []⟩ : Worker) :: ws) p q c =
      (⟨c, [⟨p, q, true⟩], []⟩ : Worker) :: move_rxqs ws p q c := by
  unfold move_rxqs
  rw [List.map_cons, List.map_cons]
  congr 1
  simp

/-- The shape of the mutation when a new worker is created: the new worker sits
at the head of the resulting list, with TX queue id 0 on every port, and the
surviving pre-existing workers follow, renumbered from position 1 on. -/
lemma rxq_assign_move_new_shape (s : WorkerState) (p q c : Nat) :
    rxq_assign_move_new s p q c =
      ⟨(⟨c, [⟨p, q, true⟩],
          (s.ports.map (fun pp => { pp with n_txq := pp.n_txq + 1 })).map
            (fun pp => (⟨pp.port_id, 0, true⟩ : QueueMap))⟩ : Worker) ::
        renumber_txqs (s.ports.map (fun pp => { pp with n_txq := pp.n_txq + 1 }))
          ((move_rxqs s.workers p q c).filter (fun w => !w.rxqs.isEmpty)) 1,
       s.ports.map (fun pp => { pp with n_txq := pp.n_txq + 1 })⟩ := by
  unfold rxq_assign_move_new
  dsimp only
  rw [move_rxqs_new_head, List.filter_cons_of_pos rfl, renumber_txqs]

/-- C1, amended: when worker_rxq_assign succeeds on a CPU no live worker uses,
the new worker is inserted at the head of the worker list (not appended at the
end) and takes TX queue id 0 on every entry of its TX map; every live worker's
TX queue ids are renumbered to its position in the updated list, so the
pre-existing live workers do not keep their TX queue ids. -/
theorem rxq_assign_new_worker_at_head (env : CpuEnv) (s : WorkerState) (p q c : Nat)
    (s' : WorkerState)
    (hcpu : ∀ w ∈ s.workers, w.cpu_id ≠ c)
    (h : worker_rxq_assign env s p q c = (none, s')) :
    (∃ hw t, s'.workers = hw :: t ∧ hw.cpu_id = c ∧ ∀ qm ∈ hw.txqs, qm.queue_id = 0) ∧
    List.Forall₂ (fun (w : Worker) (i : Nat) => ∀ qm ∈ w.txqs, qm.queue_id = i)
      s'.workers (List.range s'.workers.length) := by
  have hany : (s.workers.any (fun w => w.cpu_id == c)) = false :=
    List.any_eq_false.mpr (fun w hw => by simp [hcpu w hw])
  have hs' : s' = rxq_assign_move_new s p q c := by
    unfold worker_rxq_assign at h
    split at h
    · simp at h
    · split at h
      · simp at h
      · split at h
        · simp at h
        · split at h
          · split at h
            · split at h
              · rename_i src hfind hcpueq
                exact absurd (by simpa using hcpueq)
                  (hcpu src (List.mem_of_find?_eq_some hfind))
              · simp only [Prod.mk.injEq, true_and] at h
                rw [← h]
                unfold rxq_assign_move
                rw [if_neg (by simp [hany])]
            · simp only [Prod.mk.injEq, true_and] at h
              rw [← h]
              unfold rxq_assign_move
              rw [if_neg (by simp [hany])]
          · simp at h
  constructor
  · rw [hs', rxq_assign_move_new_shape]
    refine ⟨_, _, rfl, rfl, ?_⟩
    intro qm hqm
    rcases List.mem_map.mp hqm with ⟨pp, _, rfl⟩
    rfl
  · have hworkers : s'.workers =
        renumber_txqs (s.ports.map (fun pp => { pp with n_txq := pp.n_txq + 1 }))
          ((move_rxqs (⟨c, [], []⟩ :: s.workers) p q c).filter (fun w => !w.rxqs.isEmpty))
          0 := by
      rw [hs']
      rfl
    rw [hworkers, renumber_txqs_length, List.range_eq_range']
    exact renumber_txqs_qids _ _ 0

/-- C1 counterexample: on a state with a single live worker on cpu 1 whose TX
queue id is 0 on every port, the successful call worker_rxq_assign(2, 1, 2)
creates a worker for the previously unused cpu 2, and the pre-existing live
worker's TX queue ids all change from 0 to 1, while the new worker sits at the
head, not the end, of the worker list, refuting the claim that pre-existing
workers keep the TX queue ids of every entry of their TX maps. -/
theorem rxq_assign_new_worker_shifts_tx_ids :
    c1State.workers.map (fun w => w.cpu_id) = [1] ∧
    (worker_rxq_assign cpuEnvAll c1State 2 1 2).1 = none ∧
    c1State.workers.map (fun w => (w.cpu_id, qmapPairs w.txqs)) =
      [(1, [(2, 0), (1, 0), (0, 0)])] ∧
    (worker_rxq_assign cpuEnvAll c1State 2 1 2).2.workers.map
        (fun w => (w.cpu_id, qmapPairs w.txqs)) =
      [(2, [(2, 0), (1, 0), (0, 0)]), (1, [(2, 1), (1, 1), (0, 1)])] := by
  decide

/-- Witness for the amended C1, at the same concrete input as the
counterexample. -/
theorem rxq_assign_new_worker_at_head_witness :
    (∃ hw t, (worker_rxq_assign cpuEnvAll c1State 2 1 2).2.workers = hw :: t ∧
        hw.cpu_id = 2 ∧ ∀ qm ∈ hw.txqs, qm.queue_id = 0) ∧
    List.Forall₂ (fun (w : Worker) (i : Nat) => ∀ qm ∈ w.txqs, qm.queue_id = i)
      (worker_rxq_assign cpuEnvAll c1State 2 1 2).2.workers
      (List.range (worker_rxq_assign cpuEnvAll c1State 2 1 2).2.workers.length) :=
  rxq_assign_new_worker_at_head cpuEnvAll c1State 2 1 2
    (worker_rxq_assign cpuEnvAll c1State 2 1 2).2 (by decide) (by decide)

end Grout
